import Mathlib

/-!
Verification of the mem0 Cursor hooks (memory_retrieve.py, memory_save.py).

The two hook scripts are shallowly embedded below. JSON documents (stdin
payloads, emitted results) are modelled by the inductive `JVal`; the process
environment by an association list; file reads of optional `.env` files by a
function from paths to optional line lists; the remote mem0 service by
explicit outcome parameters. An uncaught Python exception is modelled by
`Except.error`; the kind of exception carried is only informative, since the
host observes merely that the process crashed.

Modelling notes, stated once:
- JSON numbers are modelled by `Int`; no claim below depends on fractional
  JSON input values. Truthiness of a number is nonzero-ness either way.
- Keys of a parsed JSON object are distinct (json.load keeps one binding per
  key), so first-match lookup over the association list is faithful.
- Python strings are sequences of code points; `String` (a list of `Char`)
  matches, and slicing is done on the underlying character list.
- The remote search response is modelled as an already extracted list of
  well formed memory records: the claims under study quantify over stdin,
  configuration and the environment, not over malformed API responses.
-/

/-- A JSON value, as produced by json.load. -/
inductive JVal where
  | null : JVal
  | bool : Bool → JVal
  | num : Int → JVal
  | str : String → JVal
  | arr : List JVal → JVal
  | obj : List (String × JVal) → JVal
deriving Repr

/-- Python truthiness of a JSON value: None, False, 0, empty string, empty
list and empty dict are falsy, everything else truthy. -/
def pyTruthy : JVal → Bool
  | .null => false
  | .bool b => b
  | .num n => n != 0
  | .str s => s != ""
  | .arr xs => !xs.isEmpty
  | .obj kvs => !kvs.isEmpty

/-- Kinds of uncaught Python exception relevant to the hooks. -/
inductive PyErr where
  | attributeError : PyErr
  | typeError : PyErr
  | valueError : PyErr
deriving Repr, DecidableEq

/-- Dictionary field lookup without default: first binding of the key. -/
def jLookup (kvs : List (String × JVal)) (k : String) : Option JVal :=
  (kvs.find? (fun p => p.1 == k)).map (fun p => p.2)

/-- Python d.get(key, default) on a JSON value: AttributeError unless the
value is a dict. -/
def objGetE (v : JVal) (k : String) (d : JVal) : Except PyErr JVal :=
  match v with
  | .obj kvs => .ok ((jLookup kvs k).getD d)
  | _ => .error .attributeError

/-- Field access on an arbitrary JSON value, used to state properties of
emitted documents. -/
def jGetField (v : JVal) (k : String) : Option JVal :=
  match v with
  | .obj kvs => jLookup kvs k
  | _ => none

/-! ## Process environment -/

/-- The process environment: an association list of variable bindings with
first-match lookup. -/
abbrev Env := List (String × String)

/-- os.environ lookup without default. -/
def envLookup (env : Env) (k : String) : Option String :=
  (env.find? (fun p => p.1 == k)).map (fun p => p.2)

/-- os.environ.get(k, d). -/
def envGet (env : Env) (k d : String) : String :=
  (envLookup env k).getD d

/-- os.environ.setdefault(k, v): bind k to v only when k is unbound. -/
def envSetdefault (env : Env) (k v : String) : Env :=
  match envLookup env k with
  | some _ => env
  | none => env ++ [(k, v)]

/-! ## Numeric parsing (Python int() and float() on environment strings) -/

/-- Python whitespace characters stripped by str.strip(). -/
def isPySpace (c : Char) : Bool :=
  c = ' ' || c = '\t' || c = '\n' || c = '\r' || c.toNat = 11 || c.toNat = 12

/-- str.strip() on the character list. -/
def pyStripList (cs : List Char) : List Char :=
  ((cs.dropWhile isPySpace).reverse.dropWhile isPySpace).reverse

/-- str.lower(), on the ASCII range (no hook value needs the full Unicode
lowering). -/
def pyLower (s : String) : String :=
  String.mk (s.toList.map Char.toLower)

/-- Decimal digits to a natural number. -/
def digitsToNat (ds : List Char) : Nat :=
  ds.foldl (fun a c => 10 * a + (c.toNat - 48)) 0

/-- Python int(s) on a string: surrounding whitespace, an optional sign and a
nonempty digit run. (Python additionally allows single underscores between
digits; no claim depends on that form.) -/
def pyInt? (s : String) : Option Int :=
  let cs := pyStripList s.toList
  let (sign, ds) :=
    match cs with
    | '+' :: rest => ((1 : Int), rest)
    | '-' :: rest => ((-1 : Int), rest)
    | _ => ((1 : Int), cs)
  if ds ≠ [] ∧ ds.all Char.isDigit then some (sign * (digitsToNat ds : Int))
  else none

/-- Mantissa of a Python float literal: digits, optionally a point and more
digits, with at least one digit overall. Returns the mantissa as an integer
numerator together with the power of ten of its denominator, and the rest
of the input. -/
def pyMantissa? (cs : List Char) : Option (Nat × Nat × List Char) :=
  let ip := cs.takeWhile Char.isDigit
  let r1 := cs.dropWhile Char.isDigit
  match r1 with
  | '.' :: r2 =>
      let fp := r2.takeWhile Char.isDigit
      let r3 := r2.dropWhile Char.isDigit
      if ip = [] ∧ fp = [] then none
      else some (digitsToNat ip * 10 ^ fp.length + digitsToNat fp, fp.length, r3)
  | _ =>
      if ip = [] then none else some (digitsToNat ip, 0, r1)

/-- Optional exponent part of a Python float literal, as a signed power of
ten; anything after the mantissa other than a well formed exponent makes
the whole literal malformed. -/
def pyExponent? (cs : List Char) : Option Int :=
  match cs with
  | [] => some 0
  | 'e' :: r1 =>
      let (esign, ds) :=
        match r1 with
        | '+' :: rest => ((1 : Int), rest)
        | '-' :: rest => ((-1 : Int), rest)
        | _ => ((1 : Int), r1)
      if ds ≠ [] ∧ ds.all Char.isDigit then some (esign * (digitsToNat ds : Int))
      else none
  | _ => none

/-- Python float(s): whitespace-trimmed, case-insensitive, an optional sign,
then a decimal mantissa with optional exponent, or an inf/infinity/nan
spelling. The value is the exact decimal rational; no claim reads the
resolved threshold value, so the binary rounding of the source and the
value of a non-finite float (mapped to 0 here) are not observable. -/
def pyFloat? (s : String) : Option Rat :=
  let t := (pyStripList s.toList).map Char.toLower
  let (sign, cs) :=
    match t with
    | '+' :: rest => ((1 : Int), rest)
    | '-' :: rest => ((-1 : Int), rest)
    | cs => ((1 : Int), cs)
  if cs = ['i', 'n', 'f'] ∨ cs = "infinity".toList ∨ cs = ['n', 'a', 'n'] then
    some 0
  else
    match pyMantissa? cs with
    | none => none
    | some (num, denPow, rest) =>
        match pyExponent? rest with
        | none => none
        | some e =>
            let eUp := (max e 0).toNat
            let eDown := (max (-e) 0).toNat
            some (mkRat (sign * ((num * 10 ^ eUp : Nat) : Int)) (10 ^ (denPow + eDown)))

/-! ## load_env_file (identical in both hook scripts)

The filesystem is a function from paths to the lines of the file at that
path, `none` meaning the path does not exist. The `roots` parameter stands
for the workspace_roots list parsed out of the CURSOR_HOOK_INPUT environment
document; shapes of that document other than a list of root strings make the
enclosing try/except swallow the whole first phase, which is the same as an
empty roots list. -/

/-- Split a character list at its first equals sign; fails when no equals
sign occurs, mirroring the membership test of the source loop. -/
def splitFirstEq (cs : List Char) : Option (List Char × List Char) :=
  match cs with
  | [] => none
  | '=' :: rest => some ([], rest)
  | c :: rest => (splitFirstEq rest).map (fun p => (c :: p.1, p.2))

/-- Whether a stripped line is a comment line. -/
def startsHash (cs : List Char) : Bool :=
  match cs with
  | '#' :: _ => true
  | _ => false

/-- Parse one line of a .env file as the source loop does: strip, skip blank
lines and comment lines, and split at the first equals sign, stripping key
and value. Lines without an equals sign are skipped. -/
def parseEnvLine (line : String) : Option (String × String) :=
  let l := pyStripList line.toList
  if l ≠ [] ∧ ¬ startsHash l then
    match splitFirstEq l with
    | some (key, value) =>
        some (String.mk (pyStripList key), String.mk (pyStripList value))
    | none => none
  else none

/-- Apply os.environ.setdefault for every parsed line of a .env file. -/
def loadLines (env : Env) (lines : List String) : Env :=
  lines.foldl
    (fun e line =>
      match parseEnvLine line with
      | some (k, v) => envSetdefault e k v
      | none => e)
    env

/-- The first workspace root whose .env file exists, yielding its lines; the
source loop breaks after loading that first match. -/
def findRootEnv (fs : String → Option (List String)) (roots : List String) :
    Option (List String) :=
  match roots with
  | [] => none
  | r :: rest =>
      match fs (r ++ "/.env") with
      | some lines => some lines
      | none => findRootEnv fs rest

/-- load_env_file: load the .env of the first workspace root that has one,
then also the .env of the current directory, each via setdefault. -/
def load_env_file (fs : String → Option (List String)) (cwd : String)
    (roots : List String) (env : Env) : Env :=
  let env1 :=
    match findRootEnv fs roots with
    | some lines => loadLines env lines
    | none => env
  match fs (cwd ++ "/.env") with
  | some lines => loadLines env1 lines
  | none => env1

/-! ## Configuration resolution -/

/-- Configuration of the retrieve hook. -/
structure RetrieveConfig where
  api_key : String
  user_id : String
  top_k : Int
  threshold : Rat
  auto_save : Bool
deriving Repr, DecidableEq

/-- Configuration of the save hook. -/
structure SaveConfig where
  api_key : String
  user_id : String
  save_messages : Int
deriving Repr, DecidableEq

/-- get_config of memory_retrieve.py. The dict literal evaluates int() on
MEM0_TOP_K before float() on MEM0_THRESHOLD; a malformed value raises
ValueError out of the function. -/
def get_config_retrieve (env : Env) : Except PyErr RetrieveConfig :=
  match pyInt? (envGet env "MEM0_TOP_K" "5") with
  | none => .error .valueError
  | some k =>
      match pyFloat? (envGet env "MEM0_THRESHOLD" "0.3") with
      | none => .error .valueError
      | some th =>
          .ok { api_key := envGet env "MEM0_API_KEY" ""
                user_id := envGet env "MEM0_USER_ID" "cursor-user"
                top_k := k
                threshold := th
                auto_save := pyLower (envGet env "MEM0_AUTO_SAVE" "true") == "true" }

/-- get_config of memory_save.py. -/
def get_config_save (env : Env) : Except PyErr SaveConfig :=
  match pyInt? (envGet env "MEM0_SAVE_MESSAGES" "10") with
  | none => .error .valueError
  | some n =>
      .ok { api_key := envGet env "MEM0_API_KEY" ""
            user_id := envGet env "MEM0_USER_ID" "cursor-user"
            save_messages := n }

/-! ## Transcript normalization (extract_messages of memory_save.py) -/

/-- A normalized message. The role is kept as the raw JSON value: the source
only checks its truthiness, so a truthy non-string role is kept as is. -/
structure Message where
  role : JVal
  content : String
deriving Repr

/-- Per-message content truncation: content longer than 2000 code points is
cut to its first 2000 code points with the fixed marker appended. -/
def truncateContent (content : String) : String :=
  if 2000 < content.length then String.mk (content.toList.take 2000) ++ "..."
  else content

/-- The parts kept by the content-list flattening loop: dict parts tagged
with type equal to text contribute their text field (defaulting to empty),
plain string parts contribute themselves, every other part is dropped. -/
def textParts (parts : List JVal) : List JVal :=
  parts.filterMap
    (fun part =>
      match part with
      | .obj kvs =>
          match (jLookup kvs "type").getD .null with
          | .str t =>
              if t = "text" then some ((jLookup kvs "text").getD (.str ""))
              else none
          | _ => none
      | .str s => some (.str s)
      | _ => none)

/-- The space-join of the kept parts: str.join raises TypeError when a kept
text field is not a string. -/
def joinParts (ps : List JVal) : Except PyErr String :=
  match ps.mapM (fun p => match p with | .str s => some s | _ => none) with
  | some ss => .ok (String.intercalate " " ss)
  | none => .error .typeError

/-- One iteration of the extract_messages loop: AttributeError when the
entry is not a dict; otherwise derive the content, and keep the entry only
when the role is truthy and the derived content is a truthy string, applying
the truncation step. -/
def normalizeEntry (msg : JVal) : Except PyErr (Option Message) :=
  match msg with
  | .obj kvs =>
      let role := (jLookup kvs "role").getD (.str "")
      let contentRaw := (jLookup kvs "content").getD (.str "")
      let contentE : Except PyErr JVal :=
        match contentRaw with
        | .arr parts => (joinParts (textParts parts)).map JVal.str
        | c => .ok c
      match contentE with
      | .error e => .error e
      | .ok content =>
          .ok (match content with
               | .str c =>
                   if pyTruthy role ∧ c ≠ "" then
                     some { role := role, content := truncateContent c }
                   else none
               | _ => none)
  | _ => .error .attributeError

/-- Python l[-n:] for an integer n: for positive n the last n elements, for
n = 0 the whole list, for negative n the list from index -n on. -/
def pySliceLast (l : List α) (n : Int) : List α :=
  if 0 < n then l.drop (l.length - n.toNat) else l.drop (-n).toNat

/-- The extract_messages loop over the sliced transcript, stopping at the
first entry that raises. -/
def normalizeAll (entries : List JVal) : Except PyErr (List Message) :=
  match entries with
  | [] => .ok []
  | e :: rest =>
      match normalizeEntry e with
      | .error err => .error err
      | .ok r =>
          match normalizeAll rest with
          | .error err => .error err
          | .ok tail => .ok (match r with | some m => m :: tail | none => tail)

/-- extract_messages of memory_save.py: select the transcript or messages
field, return early when it is falsy, slice off the most recent entries,
then normalize each. A truthy non-list transcript value raises (a string or
dict transcript also crashes the source, merely with a different exception
kind, which is not observable). -/
def extract_messages (input : JVal) (max_messages : Int) :
    Except PyErr (List Message) :=
  match objGetE input "transcript" (.arr []) with
  | .error e => .error e
  | .ok tVal =>
      match (if pyTruthy tVal then .ok tVal else objGetE input "messages" (.arr [])
             : Except PyErr JVal) with
      | .error e => .error e
      | .ok transcript =>
          if ¬ pyTruthy transcript then .ok []
          else
            match transcript with
            | .arr entries => normalizeAll (pySliceLast entries max_messages)
            | _ => .error .typeError

/-! ## Memory records and formatting (memory_retrieve.py) -/

/-- A memory record returned by search, in the well formed shape the remote
service documents: the get defaults of the source are folded into the
representation (an absent memory field is the empty string, absent
categories the empty list). -/
structure MemoryRecord where
  memory : String
  categories : List String
deriving Repr, DecidableEq

/-- format_memories of memory_retrieve.py. -/
def format_memories (results : List MemoryRecord) : String :=
  let memories := results.filterMap
    (fun r =>
      if r.memory ≠ "" then
        some (if r.categories ≠ [] then
                "- [" ++ String.intercalate ", " r.categories ++ "] " ++ r.memory
              else "- " ++ r.memory)
      else none)
  if memories = [] then ""
  else "## Relevant memories from previous conversations:\n"
        ++ String.intercalate "\n" memories

/-! ## Entry points

Remote interaction is modelled by outcome parameters: the client import can
fail, the call can raise, or the call can succeed. A remote call event is
recorded exactly when the client method is invoked (so not on import
failure). The hook process outcome records the emitted stdout documents,
the exit status and the remote calls attempted; `Except.error` stands for
an uncaught exception, which prints nothing on stdout and exits nonzero. -/

/-- A remote call to the mem0 service. -/
inductive RemoteCall where
  | search : (query : JVal) → (user_id : String) → (top_k : Int) →
      (threshold : Rat) → RemoteCall
  | add : (messages : JVal) → (user_id : String) → RemoteCall
deriving Repr

/-- Outcome of the remote search interaction, decided by the environment. -/
inductive SearchOutcome where
  | importError : SearchOutcome
  | raised : SearchOutcome
  | ok : List MemoryRecord → SearchOutcome

/-- Outcome of a remote add interaction, decided by the environment. -/
inductive AddOutcome where
  | importError : AddOutcome
  | raised : AddOutcome
  | ok : AddOutcome

/-- Observable outcome of one hook process run. -/
structure HookOutcome where
  emitted : List JVal
  exitCode : Nat
  calls : List RemoteCall
deriving Repr

/-- The default hook result document. -/
def contDoc : JVal := .obj [("action", .str "continue")]

/-- The hook result document carrying injected context. -/
def contDocCtx (m : String) : JVal :=
  .obj [("action", .str "continue"), ("context", .str m)]

/-- search_memories of memory_retrieve.py: every failure degrades to an
empty record list; the search call event is recorded unless the client
could not even be imported. -/
def search_memories (query : JVal) (cfg : RetrieveConfig) (o : SearchOutcome) :
    List MemoryRecord × List RemoteCall :=
  match o with
  | .importError => ([], [])
  | .raised => ([], [RemoteCall.search query cfg.user_id cfg.top_k cfg.threshold])
  | .ok rs => (rs, [RemoteCall.search query cfg.user_id cfg.top_k cfg.threshold])

/-- The messages payload of the retrieve-hook auto-save. -/
def promptPayload (prompt : JVal) : JVal :=
  .arr [.obj [("role", .str "user"), ("content", prompt)]]

/-- save_prompt_async of memory_retrieve.py, reduced to its call events:
exceptions in the background thread are swallowed, and the bounded join is
not observable here. -/
def save_prompt_calls (prompt : JVal) (cfg : RetrieveConfig) (o : AddOutcome) :
    List RemoteCall :=
  match o with
  | .importError => []
  | _ => [RemoteCall.add (promptPayload prompt) cfg.user_id]

/-- Encoding of normalized messages as the JSON payload passed to add. -/
def messagesPayload (msgs : List Message) : JVal :=
  .arr (msgs.map (fun m => .obj [("role", m.role), ("content", .str m.content)]))

/-- save_memories of memory_save.py, reduced to its call events. -/
def save_memories_calls (msgs : List Message) (cfg : SaveConfig) (o : AddOutcome) :
    List RemoteCall :=
  match o with
  | .importError => []
  | _ => [RemoteCall.add (messagesPayload msgs) cfg.user_id]

/-- main of memory_retrieve.py. `stdin` is the result of json.load on the
input stream, `none` when it raised JSONDecodeError. -/
def main_retrieve (fs : String → Option (List String)) (cwd : String)
    (roots : List String) (env : Env) (stdin : Option JVal)
    (so : SearchOutcome) (ao : AddOutcome) : Except PyErr HookOutcome :=
  match stdin with
  | none => .ok { emitted := [contDoc], exitCode := 0, calls := [] }
  | some input =>
      match objGetE input "prompt" (.str "") with
      | .error e => .error e
      | .ok p =>
          -- The source evaluates the query get only when the prompt value is
          -- falsy; hoisting it is observationally identical, since it can
          -- only raise when the prompt get already raised (same dict check).
          match objGetE input "query" (.str "") with
          | .error e => .error e
          | .ok q =>
              let user_prompt := if pyTruthy p then p else q
              if ¬ pyTruthy user_prompt then
                .ok { emitted := [contDoc], exitCode := 0, calls := [] }
              else
                match get_config_retrieve (load_env_file fs cwd roots env) with
                | .error e => .error e
                | .ok cfg =>
                    if cfg.api_key = "" then
                      .ok { emitted := [contDoc], exitCode := 0, calls := [] }
                    else
                      let sr := search_memories user_prompt cfg so
                      let ac := if cfg.auto_save then save_prompt_calls user_prompt cfg ao
                                else []
                      let calls := sr.2 ++ ac
                      if sr.1 ≠ [] then
                        let message := format_memories sr.1
                        if message ≠ "" then
                          .ok { emitted := [contDocCtx message], exitCode := 0,
                                calls := calls }
                        else
                          .ok { emitted := [contDoc], exitCode := 0, calls := calls }
                      else
                        .ok { emitted := [contDoc], exitCode := 0, calls := calls }

/-- main of memory_save.py. -/
def main_save (fs : String → Option (List String)) (cwd : String)
    (roots : List String) (env : Env) (stdin : Option JVal)
    (ao : AddOutcome) : Except PyErr HookOutcome :=
  match stdin with
  | none => .ok { emitted := [contDoc], exitCode := 0, calls := [] }
  | some input =>
      match get_config_save (load_env_file fs cwd roots env) with
      | .error e => .error e
      | .ok cfg =>
          if cfg.api_key = "" then
            .ok { emitted := [contDoc], exitCode := 0, calls := [] }
          else
            match extract_messages input cfg.save_messages with
            | .error e => .error e
            | .ok msgs =>
                let calls := if ¬ msgs.isEmpty then save_memories_calls msgs cfg ao
                             else []
                .ok { emitted := [contDoc], exitCode := 0, calls := calls }

/-! ## Auxiliary definitions used to state the claims -/

/-- A filesystem with no files, used for concrete runs. -/
def emptyFs : String → Option (List String) := fun _ => none

/-- The process run emitted exactly one document, that document carries the
action field with value continue, and the exit status is zero. -/
def EmitsContinueOnce (r : Except PyErr HookOutcome) : Prop :=
  ∃ out doc, r = .ok out ∧ out.exitCode = 0 ∧ out.emitted = [doc] ∧
    jGetField doc "action" = some (.str "continue")

/-- Whether an Except value is a success. -/
def exceptOk : Except ε α → Bool
  | .ok _ => true
  | .error _ => false

/-- The stdin document either failed to parse or parsed to a JSON object. -/
def StdinNoneOrObj (stdin : Option JVal) : Prop :=
  stdin = none ∨ ∃ kvs, stdin = some (.obj kvs)

/-- The normalized message a transcript entry contributes when its
processing does not raise. -/
def okNorm (e : JVal) : Option Message :=
  match normalizeEntry e with
  | .ok r => r
  | .error _ => none

/-- Transcript normalization as the spec words it: first drop invalid
entries from the whole transcript, then keep the most recent N of the
remaining entries in original order. -/
def extract_messages_spec (entries : List JVal) (n : Int) : List Message :=
  pySliceLast (entries.filterMap okNorm) n

/-- A bullet line as the spec words it. -/
def bulletLine (r : MemoryRecord) : String :=
  "- " ++ (if r.categories ≠ [] then
             "[" ++ String.intercalate ", " r.categories ++ "] "
           else "") ++ r.memory

/-- Formatting as the spec words it: filter out empty-memory records, render
each survivor as a bullet line, return the empty string when none survives,
otherwise prepend the fixed section header. -/
def format_memories_spec (results : List MemoryRecord) : String :=
  let survivors := results.filter (fun r => r.memory ≠ "")
  if survivors = [] then ""
  else "## Relevant memories from previous conversations:\n"
        ++ String.intercalate "\n" (survivors.map bulletLine)

/-- A plain-text transcript entry with the given role and content. -/
def mkEntry (p : String × String) : JVal :=
  .obj [("role", .str p.1), ("content", .str p.2)]

/-- The normalized message a plain-text entry yields. -/
def mkMsg (p : String × String) : Message :=
  { role := .str p.1, content := truncateContent p.2 }

/-- The first definition of a key among the parsed lines of a .env file. -/
def firstDef (lines : List String) (k : String) : Option String :=
  ((lines.filterMap parseEnvLine).find? (fun p => p.1 == k)).map (fun p => p.2)

/-! ## Truncation lemmas -/

lemma truncateContent_short {s : String} (h : s.length ≤ 2000) :
    truncateContent s = s := by
  simp [truncateContent, Nat.not_lt.mpr h]

lemma take_toList_length {s : String} (h : 2000 < s.length) :
    (s.toList.take 2000).length = 2000 := by
  have hs : s.length = s.toList.length := rfl
  simp only [List.length_take]
  omega

lemma truncateContent_long_eq {s : String} (h : 2000 < s.length) :
    truncateContent s = String.mk (s.toList.take 2000) ++ "..." := by
  simp only [truncateContent, if_pos h]

lemma truncateContent_long_toList {s : String} (h : 2000 < s.length) :
    (truncateContent s).toList = s.toList.take 2000 ++ "...".toList := by
  rw [truncateContent_long_eq h]
  rfl

lemma truncateContent_long_length {s : String} (h : 2000 < s.length) :
    (truncateContent s).length = 2003 := by
  have h1 : (truncateContent s).length = (truncateContent s).toList.length := rfl
  rw [h1, truncateContent_long_toList h, List.length_append, take_toList_length h]
  decide

lemma truncateContent_idem (s : String) :
    truncateContent (truncateContent s) = truncateContent s := by
  by_cases h : 2000 < s.length
  · have hlen : 2000 < (truncateContent s).length := by
      rw [truncateContent_long_length h]; omega
    have htl : (truncateContent s).toList.take 2000 = s.toList.take 2000 := by
      rw [truncateContent_long_toList h]
      have hx := take_toList_length h
      calc (s.toList.take 2000 ++ "...".toList).take 2000
          = (s.toList.take 2000 ++ "...".toList).take (s.toList.take 2000).length := by
            rw [hx]
        _ = s.toList.take 2000 := List.take_left _ _
    rw [truncateContent_long_eq hlen, htl, ← truncateContent_long_eq h]
  · simp [truncateContent_short (Nat.not_lt.mp h)]

/-- C4: the per-message truncation step leaves content of at most 2000
characters unchanged; longer content becomes exactly its first 2000
characters followed by the fixed marker (2003 characters in total); and the
step is idempotent. -/
theorem mem0_c4_truncation_idempotent (s : String) :
    (s.length ≤ 2000 → truncateContent s = s) ∧
    (2000 < s.length →
      (truncateContent s).toList = s.toList.take 2000 ++ "...".toList ∧
      (truncateContent s).length = 2003) ∧
    truncateContent (truncateContent s) = truncateContent s :=
  ⟨fun h => truncateContent_short h,
   fun h => ⟨truncateContent_long_toList h, truncateContent_long_length h⟩,
   truncateContent_idem s⟩

/-- C4 witness: a 5-character content is unchanged and a 2001-character
content truncates to 2003 characters. -/
theorem mem0_c4_truncation_idempotent_witness :
    truncateContent "hello" = "hello" ∧
    (truncateContent (String.mk (List.replicate 2001 'a'))).length = 2003 := by
  have hlen : 2000 < (String.mk (List.replicate 2001 'a')).length := by
    have he : (String.mk (List.replicate 2001 'a')).length = 2001 := by
      show (List.replicate 2001 'a').length = 2001
      exact List.length_replicate 2001 'a'
    omega
  constructor
  · exact (mem0_c4_truncation_idempotent "hello").1 (by decide)
  · exact ((mem0_c4_truncation_idempotent (String.mk (List.replicate 2001 'a'))).2.1 hlen).2

/-! ## Formatter lemmas -/

lemma filterMap_if_eq_map_filter {α β : Type} (p : α → Prop) [DecidablePred p]
    (f : α → β) (l : List α) :
    (l.filterMap fun a => if p a then some (f a) else none)
      = (l.filter fun a => p a).map f := by
  induction l with
  | nil => rfl
  | cons a t ih =>
      by_cases h : p a
      · simp [List.filterMap_cons, List.filter_cons, h, ih]
      · simp [List.filterMap_cons, List.filter_cons, h, ih]

lemma line_eq_bulletLine (r : MemoryRecord) :
    (if r.categories ≠ [] then
       "- [" ++ String.intercalate ", " r.categories ++ "] " ++ r.memory
     else "- " ++ r.memory) = bulletLine r := by
  by_cases hc : r.categories = []
  · simp [bulletLine, hc]
  · simp only [bulletLine, hc, ne_eq, not_false_iff, if_pos]
    show "- [" ++ String.intercalate ", " r.categories ++ "] " ++ r.memory
        = "- " ++ ("[" ++ String.intercalate ", " r.categories ++ "] ") ++ r.memory
    simp only [← String.append_assoc]
    rfl

lemma format_memories_eq_spec (rs : List MemoryRecord) :
    format_memories rs = format_memories_spec rs := by
  have hmem :
      (rs.filterMap (fun r =>
        if r.memory ≠ "" then
          some (if r.categories ≠ [] then
                  "- [" ++ String.intercalate ", " r.categories ++ "] " ++ r.memory
                else "- " ++ r.memory)
        else none))
      = (rs.filter (fun r => r.memory ≠ "")).map bulletLine := by
    have hgen := filterMap_if_eq_map_filter (fun r : MemoryRecord => r.memory ≠ "")
      (fun r => if r.categories ≠ [] then
                  "- [" ++ String.intercalate ", " r.categories ++ "] " ++ r.memory
                else "- " ++ r.memory) rs
    rw [hgen]
    exact List.map_congr_left (fun r _ => line_eq_bulletLine r)
  simp only [format_memories, format_memories_spec, hmem]
  by_cases hnil : rs.filter (fun r => r.memory ≠ "") = []
  · simp [hnil]
  · simp [hnil, List.map_eq_nil_iff]

/-- C7: the formatter agrees with its specification (drop empty-memory
records, bullet lines with a bracketed category prefix when categories are
nonempty, empty string when nothing survives, fixed header otherwise); it
maps the two-record example to a single prefixed bullet under the header,
and a list whose records all have empty memory fields to the empty
string. -/
theorem mem0_c7_format_memories :
    (∀ rs, format_memories rs = format_memories_spec rs) ∧
    (∀ rs : List MemoryRecord, (∀ r ∈ rs, r.memory = "") → format_memories rs = "") ∧
    format_memories [{ memory := "likes dark mode", categories := ["preferences"] },
                     { memory := "", categories := [] }]
      = "## Relevant memories from previous conversations:\n- [preferences] likes dark mode" := by
  refine ⟨format_memories_eq_spec, ?_, rfl⟩
  intro rs h
  rw [format_memories_eq_spec]
  unfold format_memories_spec
  rw [show rs.filter (fun r => r.memory ≠ "") = [] from
    List.filter_eq_nil_iff.mpr (fun r hr => by simp [h r hr])]
  rfl

/-- C7 witness: a single record with empty memory formats to the empty
string. -/
theorem mem0_c7_format_memories_witness :
    format_memories [{ memory := "", categories := ["x"] }] = "" :=
  mem0_c7_format_memories.2.1 [{ memory := "", categories := ["x"] }] (by simp)

/-! ## Transcript normalization lemmas -/

lemma normalizeAll_ok (l : List JVal) (msgs : List Message)
    (h : normalizeAll l = .ok msgs) : msgs = l.filterMap okNorm := by
  induction l generalizing msgs with
  | nil =>
      simp only [normalizeAll] at h
      cases h
      rfl
  | cons e rest ih =>
      simp only [normalizeAll] at h
      cases he : normalizeEntry e with
      | error err => rw [he] at h; cases h
      | ok r =>
          rw [he] at h
          cases ht : normalizeAll rest with
          | error err => rw [ht] at h; cases h
          | ok tail =>
              rw [ht] at h
              cases h
              have htail := ih tail ht
              cases r with
              | some m => simp [List.filterMap_cons, okNorm, he, htail]
              | none => simp [List.filterMap_cons, okNorm, he, htail]

/-- A transcript entry that normalizes to a kept message. -/
def entryValid : JVal :=
  .obj [("role", .str "user"), ("content", .str "hi")]

/-- A transcript entry that is dropped (empty role). -/
def entryInvalid : JVal :=
  .obj [("role", .str ""), ("content", .str "x")]

/-- C3 counterexample: on a transcript whose first entry is valid and whose
last entry is invalid, with limit 1, the source yields no message at all,
while filtering the whole transcript first and tail-slicing second would
keep the valid entry. -/
theorem mem0_c3_counterexample :
    extract_messages (.obj [("transcript", .arr [entryValid, entryInvalid])]) 1 = .ok []
    ∧ extract_messages_spec [entryValid, entryInvalid] 1
        = [{ role := .str "user", content := "hi" }]
    ∧ ([] : List Message) ≠ [{ role := JVal.str "user", content := "hi" }] :=
  ⟨rfl, rfl, by simp⟩

/-- C3 amended: extract_messages first keeps the most recent N transcript
entries and only then drops invalid ones, so its result equals the valid
normalized entries of the last N elements of the transcript. -/
theorem mem0_c3_tail_slice_then_filter (entries : List JVal) (n : Int)
    (msgs : List Message) (_hn : 0 < n)
    (h : extract_messages (JVal.obj [("transcript", JVal.arr entries)]) n = .ok msgs) :
    msgs = (pySliceLast entries n).filterMap okNorm := by
  cases entries with
  | nil =>
      have he : extract_messages (JVal.obj [("transcript", JVal.arr [])]) n
          = .ok [] := rfl
      rw [he] at h
      cases h
      simp [pySliceLast]
  | cons e es =>
      have he : extract_messages (JVal.obj [("transcript", JVal.arr (e :: es))]) n
          = normalizeAll (pySliceLast (e :: es) n) := rfl
      rw [he] at h
      exact normalizeAll_ok _ _ h

/-- C3 witness: the amended statement evaluated on the counterexample
transcript with limit 1. -/
theorem mem0_c3_tail_slice_then_filter_witness :
    ([] : List Message) = (pySliceLast [entryValid, entryInvalid] 1).filterMap okNorm :=
  mem0_c3_tail_slice_then_filter [entryValid, entryInvalid] 1 [] (by norm_num) rfl

lemma normalizeEntry_mkEntry (p : String × String) (h1 : p.1 ≠ "") :
    normalizeEntry (mkEntry p) = .ok (if p.2 ≠ "" then some (mkMsg p) else none) := by
  have hrole : pyTruthy (.str p.1) = true := by simp [pyTruthy, bne, h1]
  by_cases h2 : p.2 = ""
  · simp [normalizeEntry, mkEntry, jLookup, mkMsg, hrole, h2]
  · simp [normalizeEntry, mkEntry, jLookup, mkMsg, hrole, h2]

lemma normalizeAll_map_mkEntry (l : List (String × String))
    (h : ∀ p ∈ l, p.1 ≠ "" ∧ p.2 ≠ "") :
    normalizeAll (l.map mkEntry) = .ok (l.map mkMsg) := by
  induction l with
  | nil => rfl
  | cons p t ih =>
      have hp := h p (List.mem_cons_self p t)
      have he : normalizeEntry (mkEntry p) = .ok (some (mkMsg p)) := by
        rw [normalizeEntry_mkEntry p hp.1, if_pos hp.2]
      have ht := ih (fun q hq => h q (List.mem_cons_of_mem p hq))
      simp [normalizeAll, he, ht]

lemma pySliceLast_map {α β : Type} (f : α → β) (l : List α) (n : Int) :
    pySliceLast (l.map f) n = (pySliceLast l n).map f := by
  by_cases h : 0 < n <;> simp [pySliceLast, h, List.map_drop]

lemma pySliceLast_subset {α : Type} (l : List α) (n : Int) :
    ∀ p ∈ pySliceLast l n, p ∈ l := by
  intro p hp
  unfold pySliceLast at hp
  split at hp <;> exact List.mem_of_mem_drop hp

/-- C5: a transcript of entries each carrying a nonempty role string and a
nonempty plain-text content string normalizes to exactly one message per
entry in order when there are at most N entries, and to the most recent N
entries in order (exactly N messages) otherwise. -/
theorem mem0_c5_round_trip (ps : List (String × String)) (n : Int)
    (hn : 0 < n) (hok : ∀ p ∈ ps, p.1 ≠ "" ∧ p.2 ≠ "") :
    ((ps.length : Int) ≤ n →
        extract_messages (.obj [("transcript", .arr (ps.map mkEntry))]) n
          = .ok (ps.map mkMsg)) ∧
    (n < (ps.length : Int) →
        extract_messages (.obj [("transcript", .arr (ps.map mkEntry))]) n
          = .ok ((ps.drop (ps.length - n.toNat)).map mkMsg)
        ∧ ((ps.drop (ps.length - n.toNat)).map mkMsg).length = n.toNat) := by
  have hmain : extract_messages (.obj [("transcript", .arr (ps.map mkEntry))]) n
      = .ok ((pySliceLast ps n).map mkMsg) := by
    cases hps : ps with
    | nil => simp [pySliceLast]; rfl
    | cons q qs =>
        have he : extract_messages
            (JVal.obj [("transcript", JVal.arr ((q :: qs).map mkEntry))]) n
            = normalizeAll (pySliceLast ((q :: qs).map mkEntry) n) := rfl
        rw [he, pySliceLast_map]
        apply normalizeAll_map_mkEntry
        intro p hp
        exact hok p (hps ▸ pySliceLast_subset (q :: qs) n p hp)
  constructor
  · intro hle
    have hslice : pySliceLast ps n = ps := by
      have : ps.length - n.toNat = 0 := by omega
      simp [pySliceLast, hn, this]
    rw [hmain, hslice]
  · intro hlt
    have hslice : pySliceLast ps n = ps.drop (ps.length - n.toNat) := by
      simp [pySliceLast, hn]
    refine ⟨by rw [hmain, hslice], ?_⟩
    simp only [List.length_map, List.length_drop]
    omega

/-- C5 witness: three one-word messages against limits 5 and 2. -/
theorem mem0_c5_round_trip_witness :
    (extract_messages (.obj [("transcript",
        .arr ([("user", "a"), ("assistant", "b"), ("user", "c")].map mkEntry))]) 5
      = .ok ([("user", "a"), ("assistant", "b"), ("user", "c")].map mkMsg))
    ∧ (extract_messages (.obj [("transcript",
        .arr ([("user", "a"), ("assistant", "b"), ("user", "c")].map mkEntry))]) 2
      = .ok ([("assistant", "b"), ("user", "c")].map mkMsg)) := by
  constructor
  · exact (mem0_c5_round_trip [("user", "a"), ("assistant", "b"), ("user", "c")] 5
      (by norm_num) (by simp)).1 (by norm_num)
  · exact ((mem0_c5_round_trip [("user", "a"), ("assistant", "b"), ("user", "c")] 2
      (by norm_num) (by simp)).2 (by norm_num)).1

/-! ## Environment loading lemmas -/

/-- Left-biased choice on optional values, used to state the first
definition wins semantics. -/
def optOr (a b : Option α) : Option α :=
  match a with
  | some x => some x
  | none => b

/-- The first definition of a key contributed by an optional file. -/
def fileDef (lines? : Option (List String)) (k : String) : Option String :=
  match lines? with
  | some lines => firstDef lines k
  | none => none

lemma optOr_none_right (a : Option α) : optOr a none = a := by
  cases a <;> rfl

lemma optOr_none_left (b : Option α) : optOr none b = b := rfl

lemma optOr_assoc (a b c : Option α) :
    optOr (optOr a b) c = optOr a (optOr b c) := by
  cases a <;> rfl

lemma envLookup_append_single (e : Env) (k0 v k : String) :
    envLookup (e ++ [(k0, v)]) k
      = optOr (envLookup e k) (if k0 == k then some v else none) := by
  simp only [envLookup, List.find?_append]
  cases h : e.find? (fun p => p.1 == k) with
  | some p => simp [optOr, envLookup, h]
  | none =>
      simp only [envLookup, h, Option.map, optOr, Option.orElse, List.find?]
      by_cases hk : k0 == k
      · simp [hk]
      · simp [hk]

lemma envLookup_setdefault (e : Env) (k0 v k : String) :
    envLookup (envSetdefault e k0 v) k
      = optOr (envLookup e k) (if k0 == k then some v else none) := by
  unfold envSetdefault
  cases h : envLookup e k0 with
  | some w =>
      cases h2 : envLookup e k with
      | some u => simp [optOr, h2]
      | none =>
          have hk : (k0 == k) = false := by
            by_contra hcontra
            have hkk : k0 = k := by simpa using hcontra
            rw [hkk] at h
            rw [h] at h2
            cases h2
          simp [optOr, h2, hk]
  | none => exact envLookup_append_single e k0 v k

lemma firstDef_cons (line : String) (rest : List String) (k : String) :
    firstDef (line :: rest) k
      = match parseEnvLine line with
        | some (k0, v) => if k0 == k then some v else firstDef rest k
        | none => firstDef rest k := by
  cases hp : parseEnvLine line with
  | none => simp [firstDef, List.filterMap_cons, hp]
  | some kv =>
      obtain ⟨k0, v⟩ := kv
      by_cases hk : k0 == k
      · simp [firstDef, List.filterMap_cons, hp, List.find?_cons, hk]
      · simp only [firstDef, List.filterMap_cons, hp, List.find?_cons]
        simp [hk]

lemma envLookup_loadLines (lines : List String) :
    ∀ (e : Env) (k : String),
      envLookup (loadLines e lines) k = optOr (envLookup e k) (firstDef lines k) := by
  induction lines with
  | nil =>
      intro e k
      simp [loadLines, firstDef, optOr_none_right]
  | cons line rest ih =>
      intro e k
      rw [firstDef_cons]
      cases hp : parseEnvLine line with
      | none =>
          have hstep : loadLines e (line :: rest) = loadLines e rest := by
            simp [loadLines, hp]
          rw [hstep, ih]
      | some kv =>
          obtain ⟨k0, v⟩ := kv
          have hstep : loadLines e (line :: rest)
              = loadLines (envSetdefault e k0 v) rest := by
            simp [loadLines, hp]
          rw [hstep, ih, envLookup_setdefault, optOr_assoc]
          by_cases hk : k0 == k
          · simp [optOr, hk]
          · simp [optOr, hk]

/-- C9: after load_env_file, the binding of every key is its pre-existing
environment value when one exists, otherwise the first definition in the
.env file of the first workspace root that has one, otherwise the first
definition in the .env file of the current directory; so existing
environment values are never overwritten, the workspace roots are searched
first-match-wins before the current directory, and the earliest-read
definition of a key wins. -/
theorem mem0_c9_env_loading (fs : String → Option (List String)) (cwd : String)
    (roots : List String) (env : Env) (k : String) :
    envLookup (load_env_file fs cwd roots env) k
      = optOr (envLookup env k)
          (optOr (fileDef (findRootEnv fs roots) k)
                 (fileDef (fs (cwd ++ "/.env")) k)) := by
  unfold load_env_file
  cases h1 : findRootEnv fs roots with
  | none =>
      cases h2 : fs (cwd ++ "/.env") with
      | none => simp [fileDef, optOr_none_right]
      | some lines => simp [fileDef, envLookup_loadLines, optOr_none_left]
  | some lines1 =>
      cases h2 : fs (cwd ++ "/.env") with
      | none => simp [fileDef, envLookup_loadLines, optOr_none_right]
      | some lines2 =>
          simp [fileDef, envLookup_loadLines, optOr_assoc]

/-! ## Entry point claims -/

/-- C6 counterexample: a payload whose prompt field is a non-empty JSON
array (so not a non-empty string) does not short-circuit: the hook performs
the remote search with that array as the query and only then emits the
default result. -/
theorem mem0_c6_counterexample :
    main_retrieve emptyFs "" [] [("MEM0_API_KEY", "k")]
        (some (.obj [("prompt", .arr [.num 1])])) .raised .importError
      = .ok { emitted := [contDoc], exitCode := 0,
              calls := [RemoteCall.search (.arr [.num 1]) "cursor-user" 5 (mkRat 3 10)] }
    ∧ (∀ s : String, JVal.arr [.num 1] ≠ JVal.str s)
    ∧ ([RemoteCall.search (.arr [.num 1]) "cursor-user" 5 (mkRat 3 10)]
        ≠ ([] : List RemoteCall)) :=
  by
  refine ⟨rfl, fun s h => ?_, by simp⟩
  cases h

/-- C6 amended: the retrieval hook emits the default result without a
search or a save exactly on parsed object payloads whose prompt and query
fields are both falsy (absent, null, false, zero, empty string, empty array
or empty object); a truthy non-string prompt is instead passed through to
the search as the query. -/
theorem mem0_c6_falsy_prompt_short_circuit (fs : String → Option (List String))
    (cwd : String) (roots : List String) (env : Env)
    (kvs : List (String × JVal)) (so : SearchOutcome) (ao : AddOutcome)
    (hp : pyTruthy ((jLookup kvs "prompt").getD (.str "")) = false)
    (hq : pyTruthy ((jLookup kvs "query").getD (.str "")) = false) :
    main_retrieve fs cwd roots env (some (.obj kvs)) so ao
      = .ok { emitted := [contDoc], exitCode := 0, calls := [] } := by
  unfold main_retrieve
  simp [objGetE, hp, hq]

/-- C6 witness: the empty-object payload and a payload with an empty string
prompt and a zero query both short-circuit. -/
theorem mem0_c6_falsy_prompt_short_circuit_witness :
    main_retrieve emptyFs "" [] [("MEM0_API_KEY", "k")] (some (.obj [])) .raised .ok
      = .ok { emitted := [contDoc], exitCode := 0, calls := [] }
    ∧ main_retrieve emptyFs "" [] [("MEM0_API_KEY", "k")]
        (some (.obj [("prompt", .str ""), ("query", .num 0)])) .raised .ok
      = .ok { emitted := [contDoc], exitCode := 0, calls := [] } :=
  ⟨mem0_c6_falsy_prompt_short_circuit emptyFs "" [] [("MEM0_API_KEY", "k")]
      [] .raised .ok rfl rfl,
   mem0_c6_falsy_prompt_short_circuit emptyFs "" [] [("MEM0_API_KEY", "k")]
      [("prompt", .str ""), ("query", .num 0)] .raised .ok rfl rfl⟩

/-- C2 counterexample: with an empty resolved API key, a parseable non-object
stdin document makes the retrieval hook raise before the credential gate, so
no default result is emitted. -/
theorem mem0_c2_counterexample :
    get_config_retrieve (load_env_file emptyFs "" [] [])
      = .ok { api_key := "", user_id := "cursor-user", top_k := 5,
              threshold := mkRat 3 10, auto_save := true }
    ∧ main_retrieve emptyFs "" [] [] (some (.arr [.num 1])) .importError .importError
      = .error .attributeError
    ∧ (∀ out, main_retrieve emptyFs "" [] [] (some (.arr [.num 1]))
        .importError .importError ≠ .ok out) :=
  ⟨rfl, rfl, fun out h => by cases h⟩

/-- C2 amended: when numeric configuration parses and the resolved API key
is the empty string, the save hook emits the bare default result with no
remote call for every stdin, and the retrieval hook does so for every stdin
that is unparseable or parses to a JSON object (a parseable non-object
stdin crashes the retrieval hook before the credential gate). -/
theorem mem0_c2_empty_key_no_remote_call (fs : String → Option (List String))
    (cwd : String) (roots : List String) (env : Env) (stdin : Option JVal)
    (so : SearchOutcome) (ao : AddOutcome) :
    (∀ scfg : SaveConfig,
        get_config_save (load_env_file fs cwd roots env) = .ok scfg →
        scfg.api_key = "" →
        main_save fs cwd roots env stdin ao
          = .ok { emitted := [contDoc], exitCode := 0, calls := [] }) ∧
    (StdinNoneOrObj stdin →
      ∀ rcfg : RetrieveConfig,
        get_config_retrieve (load_env_file fs cwd roots env) = .ok rcfg →
        rcfg.api_key = "" →
        main_retrieve fs cwd roots env stdin so ao
          = .ok { emitted := [contDoc], exitCode := 0, calls := [] }) := by
  constructor
  · intro scfg hcfg hkey
    unfold main_save
    rcases stdin with _ | input
    · rfl
    · simp [hcfg, hkey]
  · intro hstdin rcfg hcfg hkey
    rcases hstdin with h | ⟨kvs, h⟩ <;> subst h
    · rfl
    · unfold main_retrieve
      by_cases hp : pyTruthy ((jLookup kvs "prompt").getD (.str ""))
      · simp [objGetE, hp, hcfg, hkey]
      · by_cases hq : pyTruthy ((jLookup kvs "query").getD (.str ""))
        · simp [objGetE, hp, hq, hcfg, hkey]
        · simp [objGetE, hp, hq]

/-- C2 witness: with no API key in the environment, both hooks emit the bare
default result and attempt no remote call on an object payload. -/
theorem mem0_c2_empty_key_no_remote_call_witness :
    main_save emptyFs "" [] [] (some (.obj [("transcript",
        .arr [.obj [("role", .str "user"), ("content", .str "m")]])])) .ok
      = .ok { emitted := [contDoc], exitCode := 0, calls := [] }
    ∧ main_retrieve emptyFs "" [] [] (some (.obj [("prompt", .str "hello")])) (.ok []) .ok
      = .ok { emitted := [contDoc], exitCode := 0, calls := [] } :=
  ⟨(mem0_c2_empty_key_no_remote_call emptyFs "" [] []
      (some (.obj [("transcript", .arr [.obj [("role", .str "user"), ("content", .str "m")]])]))
      (.ok []) .ok).1
      { api_key := "", user_id := "cursor-user", save_messages := 10 } rfl rfl,
   (mem0_c2_empty_key_no_remote_call emptyFs "" [] []
      (some (.obj [("prompt", .str "hello")])) (.ok []) .ok).2
      (Or.inr ⟨_, rfl⟩)
      { api_key := "", user_id := "cursor-user", top_k := 5,
        threshold := mkRat 3 10, auto_save := true } rfl rfl⟩

lemma emitsContinueOnce_contDoc (calls : List RemoteCall) :
    EmitsContinueOnce (.ok { emitted := [contDoc], exitCode := 0, calls := calls }) :=
  ⟨_, contDoc, rfl, rfl, rfl, rfl⟩

lemma emitsContinueOnce_contDocCtx (m : String) (calls : List RemoteCall) :
    EmitsContinueOnce (.ok { emitted := [contDocCtx m], exitCode := 0, calls := calls }) :=
  ⟨_, contDocCtx m, rfl, rfl, rfl, rfl⟩

lemma not_emitsContinueOnce_error (e : PyErr) :
    ¬ EmitsContinueOnce (.error e) := by
  rintro ⟨out, doc, h, _⟩
  cases h

/-- C1 counterexample: a parseable stdin document that is a JSON number (so
not the expected object shape) crashes the retrieval hook with an uncaught
AttributeError: nothing is emitted and the exit status is nonzero. -/
theorem mem0_c1_counterexample :
    main_retrieve emptyFs "" [] [("MEM0_API_KEY", "k")] (some (.num 5))
        .importError .importError
      = .error .attributeError
    ∧ ¬ EmitsContinueOnce (main_retrieve emptyFs "" [] [("MEM0_API_KEY", "k")]
        (some (.num 5)) .importError .importError) := by
  constructor
  · rfl
  · intro hcontra
    exact not_emitsContinueOnce_error .attributeError (by exact hcontra)

/-- C1 amended: whenever numeric configuration resolution succeeds, each
hook emits exactly one result document carrying action continue and exits
with status zero, for every stdin that is unparseable or parses to a JSON
object — for the save hook additionally one whose transcript normalization
does not raise. A parseable non-object stdin instead crashes the retrieval
hook before it emits anything; the save hook reads the input shape only
after its credential gate. -/
theorem mem0_c1_always_continue (fs : String → Option (List String))
    (cwd : String) (roots : List String) (env : Env) (stdin : Option JVal)
    (so : SearchOutcome) (ao : AddOutcome)
    (hstdin : StdinNoneOrObj stdin) :
    ((∃ rcfg, get_config_retrieve (load_env_file fs cwd roots env) = .ok rcfg) →
      EmitsContinueOnce (main_retrieve fs cwd roots env stdin so ao)) ∧
    (∀ scfg, get_config_save (load_env_file fs cwd roots env) = .ok scfg →
      (∀ j, stdin = some j → exceptOk (extract_messages j scfg.save_messages) = true) →
      EmitsContinueOnce (main_save fs cwd roots env stdin ao)) := by
  constructor
  · rintro ⟨rcfg, hcfg⟩
    rcases hstdin with h | ⟨kvs, h⟩ <;> subst h
    · exact emitsContinueOnce_contDoc []
    · unfold main_retrieve
      simp only [objGetE, hcfg]
      repeat' split
      all_goals
        first
          | exact emitsContinueOnce_contDoc _
          | exact emitsContinueOnce_contDocCtx _ _
  · intro scfg hcfg hex
    unfold main_save
    rcases stdin with _ | input
    · exact emitsContinueOnce_contDoc []
    · simp only [hcfg]
      by_cases hkey : scfg.api_key = ""
      · simp only [hkey, reduceIte, ite_true]
        exact emitsContinueOnce_contDoc []
      · have hx := hex input rfl
        cases hxm : extract_messages input scfg.save_messages with
        | error e => rw [hxm] at hx; cases hx
        | ok msgs =>
            simp only [hkey, hxm, reduceIte, ite_false]
            split <;> exact emitsContinueOnce_contDoc _

/-- C1 witness: on a well formed prompt payload and a well formed transcript
payload, with an API key configured, both hooks emit one continue document
and exit zero. -/
theorem mem0_c1_always_continue_witness :
    EmitsContinueOnce (main_retrieve emptyFs "" [] [("MEM0_API_KEY", "k")]
        (some (.obj [("prompt", .str "hello")])) (.ok []) .ok)
    ∧ EmitsContinueOnce (main_save emptyFs "" [] [("MEM0_API_KEY", "k")]
        (some (.obj [("transcript",
          .arr [.obj [("role", .str "user"), ("content", .str "m")]])])) .ok) := by
  have h := mem0_c1_always_continue emptyFs "" [] [("MEM0_API_KEY", "k")]
    (some (.obj [("prompt", .str "hello")])) (.ok []) .ok (Or.inr ⟨_, rfl⟩)
  have h2 := mem0_c1_always_continue emptyFs "" [] [("MEM0_API_KEY", "k")]
    (some (.obj [("transcript",
      .arr [.obj [("role", .str "user"), ("content", .str "m")]])])) (.ok []) .ok
    (Or.inr ⟨_, rfl⟩)
  exact ⟨h.1 ⟨{ api_key := "k", user_id := "cursor-user", top_k := 5,
                threshold := mkRat 3 10, auto_save := true }, rfl⟩,
         h2.2 { api_key := "k", user_id := "cursor-user", save_messages := 10 } rfl
           (fun j hj => by cases hj; rfl)⟩

lemma main_retrieve_config_error (fs : String → Option (List String))
    (cwd : String) (roots : List String) (env : Env)
    (kvs : List (String × JVal)) (so : SearchOutcome) (ao : AddOutcome)
    (p : JVal) (e : PyErr)
    (hp : jLookup kvs "prompt" = some p) (hpt : pyTruthy p = true)
    (hc : get_config_retrieve (load_env_file fs cwd roots env) = .error e) :
    main_retrieve fs cwd roots env (some (.obj kvs)) so ao = .error e := by
  unfold main_retrieve
  simp [objGetE, hp, hpt, hc]

lemma main_save_config_error (fs : String → Option (List String))
    (cwd : String) (roots : List String) (env : Env) (j : JVal)
    (ao : AddOutcome) (e : PyErr)
    (hc : get_config_save (load_env_file fs cwd roots env) = .error e) :
    main_save fs cwd roots env (some j) ao = .error e := by
  unfold main_save
  simp [hc]

/-- C8: a numeric option string that does not parse (top_k or save-message
limit as int, threshold as float) makes configuration resolution raise
ValueError instead of coercing, so a hook invocation that reaches
configuration resolution crashes without emitting a Hook Result. -/
theorem mem0_c8_malformed_numeric_config (fs : String → Option (List String))
    (cwd : String) (roots : List String) (env : Env)
    (kvs : List (String × JVal)) (p j : JVal) (so : SearchOutcome)
    (ao : AddOutcome) :
    (pyInt? (envGet (load_env_file fs cwd roots env) "MEM0_TOP_K" "5") = none →
        get_config_retrieve (load_env_file fs cwd roots env) = .error .valueError
        ∧ (jLookup kvs "prompt" = some p → pyTruthy p = true →
            main_retrieve fs cwd roots env (some (.obj kvs)) so ao
              = .error .valueError)) ∧
    (pyFloat? (envGet (load_env_file fs cwd roots env) "MEM0_THRESHOLD" "0.3") = none →
        get_config_retrieve (load_env_file fs cwd roots env) = .error .valueError
        ∧ (jLookup kvs "prompt" = some p → pyTruthy p = true →
            main_retrieve fs cwd roots env (some (.obj kvs)) so ao
              = .error .valueError)) ∧
    (pyInt? (envGet (load_env_file fs cwd roots env) "MEM0_SAVE_MESSAGES" "10") = none →
        get_config_save (load_env_file fs cwd roots env) = .error .valueError
        ∧ main_save fs cwd roots env (some j) ao = .error .valueError) := by
  refine ⟨?_, ?_, ?_⟩
  · intro hk
    have hcfg : get_config_retrieve (load_env_file fs cwd roots env)
        = .error .valueError := by
      unfold get_config_retrieve
      rw [hk]
    exact ⟨hcfg, fun hp hpt =>
      main_retrieve_config_error fs cwd roots env kvs so ao p _ hp hpt hcfg⟩
  · intro hth
    have hcfg : get_config_retrieve (load_env_file fs cwd roots env)
        = .error .valueError := by
      unfold get_config_retrieve
      cases hk : pyInt? (envGet (load_env_file fs cwd roots env) "MEM0_TOP_K" "5") with
      | none => rfl
      | some k => rw [hth]
    exact ⟨hcfg, fun hp hpt =>
      main_retrieve_config_error fs cwd roots env kvs so ao p _ hp hpt hcfg⟩
  · intro hs
    have hcfg : get_config_save (load_env_file fs cwd roots env)
        = .error .valueError := by
      unfold get_config_save
      rw [hs]
    exact ⟨hcfg, main_save_config_error fs cwd roots env j ao _ hcfg⟩

/-- C8 witness: non-numeric MEM0_TOP_K, MEM0_THRESHOLD and
MEM0_SAVE_MESSAGES values each crash the hook that reads them. -/
theorem mem0_c8_malformed_numeric_config_witness :
    main_retrieve emptyFs "" [] [("MEM0_TOP_K", "abc"), ("MEM0_API_KEY", "k")]
        (some (.obj [("prompt", .str "x")])) .importError .importError
      = .error .valueError
    ∧ main_retrieve emptyFs "" [] [("MEM0_THRESHOLD", "zz"), ("MEM0_API_KEY", "k")]
        (some (.obj [("prompt", .str "x")])) .importError .importError
      = .error .valueError
    ∧ main_save emptyFs "" [] [("MEM0_SAVE_MESSAGES", "9.5"), ("MEM0_API_KEY", "k")]
        (some (.obj [])) .ok
      = .error .valueError := by
  refine ⟨?_, ?_, ?_⟩
  · exact ((mem0_c8_malformed_numeric_config emptyFs "" []
      [("MEM0_TOP_K", "abc"), ("MEM0_API_KEY", "k")]
      [("prompt", .str "x")] (.str "x") (.obj []) .importError .importError).1
      rfl).2 rfl rfl
  · exact ((mem0_c8_malformed_numeric_config emptyFs "" []
      [("MEM0_THRESHOLD", "zz"), ("MEM0_API_KEY", "k")]
      [("prompt", .str "x")] (.str "x") (.obj []) .importError .importError).2.1
      rfl).2 rfl rfl
  · exact ((mem0_c8_malformed_numeric_config emptyFs "" []
      [("MEM0_SAVE_MESSAGES", "9.5"), ("MEM0_API_KEY", "k")]
      [] (.str "x") (.obj []) .importError .ok).2.2 rfl).2

/-- C10: the resolved auto-save flag is true exactly when the lowercased
auto-save variable equals the string true (defaulting to true when unset);
any other value yields false, and a false flag means no run of the
retrieval hook records an add call. -/
theorem mem0_c10_auto_save_flag (fs : String → Option (List String))
    (cwd : String) (roots : List String) (env : Env) (stdin : Option JVal)
    (so : SearchOutcome) (ao : AddOutcome) :
    ∀ cfg : RetrieveConfig,
      get_config_retrieve (load_env_file fs cwd roots env) = .ok cfg →
      (cfg.auto_save
          = (pyLower (envGet (load_env_file fs cwd roots env) "MEM0_AUTO_SAVE" "true")
              == "true"))
      ∧ (envLookup (load_env_file fs cwd roots env) "MEM0_AUTO_SAVE" = none →
          cfg.auto_save = true)
      ∧ (cfg.auto_save = false →
          ∀ out, main_retrieve fs cwd roots env stdin so ao = .ok out →
            ∀ m u, RemoteCall.add m u ∉ out.calls) := by
  intro cfg hcfg
  have hflag : cfg.auto_save
      = (pyLower (envGet (load_env_file fs cwd roots env) "MEM0_AUTO_SAVE" "true")
          == "true") := by
    unfold get_config_retrieve at hcfg
    cases hk : pyInt? (envGet (load_env_file fs cwd roots env) "MEM0_TOP_K" "5") with
    | none => rw [hk] at hcfg; cases hcfg
    | some k =>
        rw [hk] at hcfg
        cases hth : pyFloat? (envGet (load_env_file fs cwd roots env)
            "MEM0_THRESHOLD" "0.3") with
        | none => rw [hth] at hcfg; cases hcfg
        | some th =>
            rw [hth] at hcfg
            cases hcfg
            rfl
  refine ⟨hflag, ?_, ?_⟩
  · intro hnone
    rw [hflag]
    simp [envGet, hnone]
    rfl
  · intro hfalse out hrun m u
    unfold main_retrieve at hrun
    rcases stdin with _ | input
    · cases hrun; simp
    · dsimp only [] at hrun
      cases ho1 : objGetE input "prompt" (.str "") with
      | error e => rw [ho1] at hrun; cases hrun
      | ok p =>
          rw [ho1] at hrun
          cases ho2 : objGetE input "query" (.str "") with
          | error e => rw [ho2] at hrun; cases hrun
          | ok q =>
              rw [ho2] at hrun
              dsimp only [] at hrun
              generalize (if pyTruthy p = true then p else q) = up at hrun
              by_cases hup : pyTruthy up = true
              · rw [if_neg (by simp [hup])] at hrun
                rw [hcfg] at hrun
                dsimp only [] at hrun
                by_cases hkey : cfg.api_key = ""
                · rw [if_pos hkey] at hrun
                  cases hrun
                  simp
                · rw [if_neg hkey, hfalse] at hrun
                  simp only [Bool.false_eq_true, if_false] at hrun
                  have hcalls : out.calls = (search_memories up cfg so).2 ++ [] := by
                    split at hrun
                    · split at hrun
                      · cases hrun; rfl
                      · cases hrun; rfl
                    · cases hrun; rfl
                  rw [hcalls]
                  cases so <;> simp [search_memories]
              · rw [if_pos (by simp [hup])] at hrun
                cases hrun
                simp

/-- C10 witness: MEM0_AUTO_SAVE=yes resolves to a false flag and the run
records no add call even with search performed; an unset variable resolves
to true. -/
theorem mem0_c10_auto_save_flag_witness :
    (({ api_key := "k", user_id := "cursor-user", top_k := 5,
        threshold := mkRat 3 10, auto_save := false } : RetrieveConfig).auto_save
      = (pyLower (envGet (load_env_file emptyFs "" []
            [("MEM0_AUTO_SAVE", "yes"), ("MEM0_API_KEY", "k")])
          "MEM0_AUTO_SAVE" "true") == "true"))
    ∧ (({ api_key := "k", user_id := "cursor-user", top_k := 5,
          threshold := mkRat 3 10, auto_save := true } : RetrieveConfig).auto_save = true)
    ∧ (∀ m u, RemoteCall.add m u ∉
        ({ emitted := [contDoc], exitCode := 0,
           calls := [RemoteCall.search (.str "x") "cursor-user" 5 (mkRat 3 10)] }
          : HookOutcome).calls) := by
  have h := mem0_c10_auto_save_flag emptyFs "" []
    [("MEM0_AUTO_SAVE", "yes"), ("MEM0_API_KEY", "k")]
    (some (.obj [("prompt", .str "x")])) .raised .ok
    { api_key := "k", user_id := "cursor-user", top_k := 5,
      threshold := mkRat 3 10, auto_save := false } rfl
  have h0 := mem0_c10_auto_save_flag emptyFs "" [] [("MEM0_API_KEY", "k")]
    none .raised .ok
    { api_key := "k", user_id := "cursor-user", top_k := 5,
      threshold := mkRat 3 10, auto_save := true } rfl
  exact ⟨h.1, h0.2.1 rfl, fun m u => h.2.2 rfl _ rfl m u⟩
